import Mathlib

/-!
Verification of the ledger / conversation-state core of the chat account
service (source: src/bot.py).

The SQLite tables are embedded as lists of rows inside a `Store` record; an
SQL `UPDATE ... WHERE k = ?` becomes a `List.map` that rewrites exactly the
matching rows, an `INSERT` appends a row, and `SELECT ... fetchone()` becomes
`List.find?`.  Timestamps are modelled at calendar-day granularity as `Nat`
(the code only ever compares the date component of its ISO timestamps).
Monetary amounts (SQL `REAL`, Python `float`) are modelled as `Rat`.
Randomness (`secrets.token_hex`, the generated redeem-code string) is passed
in as an explicit argument.  Every operation is a pure function from a store
to a store, mirroring the statement sequence of the corresponding Python
handler between its `db_lock` acquisition and `conn.commit()`.
-/

namespace Bot

/-- A row of the `users` table (src/bot.py, init_database). -/
structure UserRow where
  user_id : Nat
  username : Option String
  first_name : Option String
  credits : Rat
  daily_searches : Nat
  last_reset : Option Nat
  total_searches : Nat
  referred_by : Option Nat
  referral_count : Nat
  referral_code : List Char
  joined_date : Option Nat
  is_verified : Bool
  is_banned : Bool
  is_admin : Bool
  deriving DecidableEq, Repr

/-- A row of the `redeem_codes` table. -/
structure CodeRow where
  code : String
  credits : Rat
  max_uses : Int
  used_count : Int
  created_at : Nat
  is_active : Bool
  deriving DecidableEq, Repr

/-- A row of the `code_redemptions` table. -/
structure RedemptionRow where
  code : String
  user_id : Nat
  redeemed_at : Nat
  deriving DecidableEq, Repr

/-- A row of the `search_logs` table. -/
structure SearchLogRow where
  user_id : Nat
  phone_number : String
  search_type : String
  timestamp : Nat
  deriving DecidableEq, Repr

/-- A row of the `user_states` table. -/
structure StateRow where
  user_id : Nat
  state : String
  data : Option String
  deriving DecidableEq, Repr

/-- The persistent store: the tables of the SQLite database that the claims
touch. -/
structure Store where
  users : List UserRow
  redeem_codes : List CodeRow
  code_redemptions : List RedemptionRow
  search_logs : List SearchLogRow
  user_states : List StateRow
  deriving DecidableEq, Repr

/-- The freshly initialised database: every table empty. -/
def emptyStore : Store :=
  { users := [], redeem_codes := [], code_redemptions := [],
    search_logs := [], user_states := [] }

/-- Runtime settings relevant to the claims (class Config in src/bot.py). -/
structure Config where
  joining_bonus : Rat
  referral_bonus : Rat
  private_search_cost : Rat
  daily_free_searches : Nat
  deriving DecidableEq, Repr

/-- Row-selector for `WHERE user_id = ?`. -/
def byId (uid : Nat) : UserRow → Bool := fun r => r.user_id == uid

/-- Row-selector for `WHERE referral_code = ?`. -/
def byCode (rc : List Char) : UserRow → Bool := fun r => r.referral_code == rc

/-- `SELECT * FROM users WHERE user_id = ?` (fetchone). -/
def getUser (s : Store) (uid : Nat) : Option UserRow :=
  s.users.find? (byId uid)

/-- `UPDATE users SET ... WHERE user_id = ?`: rewrite matching rows. -/
def updateUser (uid : Nat) (f : UserRow → UserRow) (s : Store) : Store :=
  { s with users := s.users.map (fun r => if r.user_id == uid then f r else r) }

/-- `DELETE FROM user_states WHERE user_id = ?` (clear_user_state). -/
def clear_user_state (uid : Nat) (s : Store) : Store :=
  { s with user_states := s.user_states.filter (fun r => !(r.user_id == uid)) }

/-- `INSERT OR REPLACE INTO user_states` (set_user_state). -/
def set_user_state (uid : Nat) (st : String) (d : Option String) (s : Store) : Store :=
  { s with user_states :=
      (s.user_states.filter (fun r => !(r.user_id == uid))) ++ [⟨uid, st, d⟩] }

/-- Decimal digit rendered as a character, as Python string formatting does. -/
def digitChar (d : Nat) : Char := Char.ofNat (48 + d)

/-- Fueled decimal-representation worker (most significant digit first). -/
def decRepAux : Nat → Nat → List Char
  | 0, _ => []
  | fuel + 1, n =>
      if n < 10 then [digitChar n]
      else decRepAux fuel (n / 10) ++ [digitChar (n % 10)]

/-- Decimal representation of a natural number, the model of Python
`str(user_id)` inside the f-string. -/
def decRep (n : Nat) : List Char := decRepAux (n + 1) n

/-- generate_referral_code (src/bot.py line 366):
`f"{user_id}{secrets.token_hex(3)}"[:8]`.  The 6-character random hex
suffix produced by `secrets.token_hex(3)` is passed in explicitly. -/
def generate_referral_code (user_id : Nat) (suffix : List Char) : List Char :=
  (decRep user_id ++ suffix).take 8

/-- The display-name refresh of get_or_create_user: Python
`username or user['username']` falls back to the stored value when the new
one is absent. -/
def refreshNames (username first_name : Option String) : UserRow → UserRow :=
  fun r =>
    { r with
      username := if username.isSome then username else r.username,
      first_name := if first_name.isSome then first_name else r.first_name }

/-- get_or_create_user (src/bot.py lines 374-400).  `now` is the current
timestamp (day granularity), `suffix` the random hex suffix drawn inside
generate_referral_code.  Returns the Python function's return value (the row
as fetched: for an existing user, the row read before the display-name
refresh) together with the updated store. -/
def newUserRow (cfg : Config) (now : Nat) (suffix : List Char) (user_id : Nat)
    (username first_name : Option String) : UserRow :=
  { user_id := user_id, username := username, first_name := first_name,
    credits := cfg.joining_bonus, daily_searches := 0,
    last_reset := some now, total_searches := 0, referred_by := none,
    referral_count := 0,
    referral_code := generate_referral_code user_id suffix,
    joined_date := some now, is_verified := false, is_banned := false,
    is_admin := false }

def get_or_create_user (cfg : Config) (now : Nat) (suffix : List Char)
    (user_id : Nat) (username first_name : Option String) (s : Store) :
    UserRow × Store :=
  match s.users.find? (byId user_id) with
  | none =>
      let u : UserRow := newUserRow cfg now suffix user_id username first_name
      (u, { s with users := s.users ++ [u] })
  | some u =>
      if username.isSome || first_name.isSome then
        (u, updateUser user_id (refreshNames username first_name) s)
      else (u, s)

/-- The row rewrite applied by a daily reset:
`UPDATE users SET daily_searches = 0, last_reset = ?`. -/
def resetRow (today : Nat) : UserRow → UserRow :=
  fun u => { u with daily_searches := 0, last_reset := some today }

/-- check_daily_reset (src/bot.py lines 402-418).  `today` is the current
calendar date; the stored `last_reset` keeps only its date component, which
is all the code compares (`now.date() > last_reset.date()`). -/
def check_daily_reset (today : Nat) (user_id : Nat) (s : Store) : Store × Bool :=
  match s.users.find? (byId user_id) with
  | none => (s, false)
  | some r =>
      match r.last_reset with
      | none => (updateUser user_id (resetRow today) s, true)
      | some d =>
          if d < today then (updateUser user_id (resetRow today) s, true)
          else (s, false)

/-- Outcome tags of a redemption attempt (src/bot.py lines 1931-1986): the
invalid-code, already-redeemed, max-usage and success replies. -/
inductive RedeemResult where
  | codeNotFound
  | alreadyRedeemed
  | codeExhausted
  | success
  deriving DecidableEq, Repr

/-- handle_redeem_code_input (src/bot.py lines 1915-1986), from the
`clear_user_state` call through the critical section (the channel-membership
gate before it is chat-transport territory and is not modelled).  `now` is
the redemption timestamp. -/
def handle_redeem_code_input (now : Nat) (code : String) (user_id : Nat)
    (s : Store) : RedeemResult × Store :=
  let s0 := clear_user_state user_id s
  match s0.redeem_codes.find? (fun rc => rc.code == code && rc.is_active) with
  | none => (.codeNotFound, s0)
  | some rc =>
      if s0.code_redemptions.any (fun r => r.code == code && r.user_id == user_id) then
        (.alreadyRedeemed, s0)
      else if rc.max_uses ≤ rc.used_count then
        (.codeExhausted, s0)
      else
        let s1 := updateUser user_id
          (fun u => { u with credits := u.credits + rc.credits }) s0
        let bumped := s1.redeem_codes.map
          (fun c => if c.code == code then { c with used_count := c.used_count + 1 } else c)
        let s2 := { s1 with redeem_codes := bumped }
        let s3 := { s2 with code_redemptions := s2.code_redemptions ++ [⟨code, user_id, now⟩] }
        (.success, s3)

/-- handle_admin_gen_code_input (src/bot.py lines 1988-2025).  The Python
`message_text.split(',')` / `float` / `int` parsing is modelled by the
optional pre-parsed pair `parsed` (`none` when the text does not parse as
`credits,max_uses`); `code` is the random string drawn by
generate_redeem_code.  A malformed or non-positive input raises and inserts
nothing; the state row of the calling admin is cleared first.  This Rat-level
variant covers only finite parsed float values; float() also accepts nan and
the infinities, whose passage through the guard is modelled at full fidelity
by handle_admin_gen_code_input_py below. -/
def handle_admin_gen_code_input (user_id : Nat) (is_admin : Bool)
    (parsed : Option (Rat × Int)) (code : String) (now : Nat) (s : Store) : Store :=
  let s0 := clear_user_state user_id s
  if !is_admin then s0
  else
    match parsed with
    | none => s0
    | some (credits, max_uses) =>
        if credits ≤ 0 ∨ max_uses ≤ 0 then s0
        else { s0 with redeem_codes :=
          s0.redeem_codes ++ [⟨code, credits, max_uses, 0, now, true⟩] }

/-- Outcome tags of the private-chat phone lookup tail. -/
inductive PhoneOutcome where
  | upstreamFailed
  | insufficientCredits
  | success
  deriving DecidableEq, Repr

/-- The store effects of the private-chat tail of handle_phone_number
(src/bot.py lines 983-1043): the outbound fetch (its success passed in as
`fetch_ok`), the search-log insert, the credit check against the per-search
cost, and the debit.  The access gates before line 983 perform no store
mutation relevant here (get_or_create_user / check_daily_reset have run;
`user_id` is the caller, `number` the queried text). -/
def handle_phone_number_private (cfg : Config) (fetch_ok : Bool) (now : Nat)
    (suffix : List Char) (user_id : Nat) (number : String) (s : Store) :
    PhoneOutcome × Store :=
  if !fetch_ok then (.upstreamFailed, s)
  else
    let s1 := { s with search_logs :=
      s.search_logs ++ [⟨user_id, number, "private", now⟩] }
    let us := get_or_create_user cfg now suffix user_id none none s1
    if us.1.credits < cfg.private_search_cost then
      (.insufficientCredits, us.2)
    else
      (.success,
       updateUser user_id
         (fun r => { r with credits := r.credits - cfg.private_search_cost,
                            total_searches := r.total_searches + 1 }) us.2)

/-- `UPDATE users SET referred_by = ? WHERE user_id = ?`. -/
def setReferredBy (inviter_id : Nat) : UserRow → UserRow :=
  fun u => { u with referred_by := some inviter_id }

/-- `UPDATE users SET credits = credits + ?, referral_count = referral_count + 1`. -/
def addReferralBonus (bonus : Rat) : UserRow → UserRow :=
  fun u => { u with credits := u.credits + bonus,
                    referral_count := u.referral_count + 1 }

/-- The referral block of the /start handler (src/bot.py lines 812-829):
look the referral code up, and when the owner exists, is not the starter,
and the starter's fetched row has no referrer yet, set `referred_by` and
credit the owner the referral bonus plus one referral.  `user_data` is the
row returned by the earlier get_or_create_user call. -/
def start_referral_block (bonus : Rat) (rc : List Char) (user_id : Nat)
    (user_data : UserRow) (s : Store) : Store :=
  match s.users.find? (byCode rc) with
  | none => s
  | some referrer =>
      if referrer.user_id ≠ user_id ∧ user_data.referred_by = none then
        updateUser referrer.user_id (addReferralBonus bonus)
          (updateUser user_id (setReferredBy referrer.user_id) s)
      else s

/-- The store effects of the /start handler (src/bot.py lines 801-829):
get-or-create the caller, run the daily reset, then process an optional
referral argument. -/
def start_flow (cfg : Config) (now : Nat) (suffix : List Char)
    (args : Option (List Char)) (user_id : Nat)
    (username first_name : Option String) (s : Store) : Store :=
  let us := get_or_create_user cfg now suffix user_id username first_name s
  let s2 := (check_daily_reset now user_id us.2).1
  match args with
  | none => s2
  | some rc => start_referral_block cfg.referral_bonus rc user_id us.1 s2

/-- Python `str.strip()` on a character list. -/
def pyStrip (l : List Char) : List Char :=
  ((l.dropWhile Char.isWhitespace).reverse.dropWhile Char.isWhitespace).reverse

def waitingVehicle : String := "waiting_vehicle_number"

def waitingGmail : String := "waiting_gmail"

def waitingPhone : String := "waiting_phone_number"

def waitingRedeem : String := "waiting_redeem_code"

def adminGenCodeState : String := "admin_gen_code"

def adminBroadcastState : String := "admin_broadcast"

def waitingSettingValue : String := "waiting_setting_value"

def waitingGroupId : String := "waiting_group_id"

def waitingChannelUsername : String := "waiting_channel_username"

def waitingBanUserId : String := "waiting_ban_user_id"

def waitingUnbanUserId : String := "waiting_unban_user_id"

def waitingAdminId : String := "waiting_admin_id"

def waitingBroadcastConfirm : String := "waiting_broadcast_confirm"

/-- The handler a plain-text message is dispatched to by
handle_text_messages (src/bot.py lines 2407-2471). -/
inductive Route where
  | vehicleLookup (v : List Char)
  | gmailLookup (e : List Char)
  | phoneLookup
  | redeemCodeInput
  | gmailInput
  | adminGenCodeInput
  | adminBroadcastInput
  | settingValueInput (d : Option String)
  | addGroupInput
  | addChannelInput
  | banUserInput
  | unbanUserInput
  | adminIdInput
  | broadcastConfirmNote
  | noRoute
  deriving DecidableEq, Repr

/-- The vehicle text shape (src/bot.py lines 2417-2419): a leading dot whose
remainder, stripped and upper-cased, is nonempty; yields that remainder. -/
def vehicleShape (t : List Char) : Option (List Char) :=
  match t with
  | '.' :: rest =>
      let v := (pyStrip rest).map Char.toUpper
      if v = [] then none else some v
  | _ => none

/-- The email text shape (src/bot.py lines 2427-2429): contains an at-sign
and a dot, and lower-cased has exactly one at-sign, a nonempty local part
and a domain part longer than 2; yields the lower-cased address. -/
def emailShape (t : List Char) : Option (List Char) :=
  if t.contains '@' && t.contains '.' then
    let email := pyStrip (t.map Char.toLower)
    if email.count '@' == 1
        && 0 < (email.takeWhile (fun c => !(c == '@'))).length
        && 2 < ((email.dropWhile (fun c => !(c == '@'))).drop 1).length then
      some email
    else none
  else none

/-- The phone text shape (src/bot.py line 2437): exactly ten digits. -/
def phoneShape (t : List Char) : Bool :=
  t.all Char.isDigit && t.length == 10

/-- The vehicle branch of the router: fires when the shape matches and the
chat is not private or the vehicle waiting state is set. -/
def vehicleRoute (chat_type : String) (state : Option String) (t : List Char) :
    Option Route :=
  match vehicleShape t with
  | some v =>
      if chat_type ≠ "private" ∨ state = some waitingVehicle then
        some (.vehicleLookup v)
      else none
  | none => none

/-- The email branch of the router. -/
def emailRoute (chat_type : String) (state : Option String) (t : List Char) :
    Option Route :=
  match emailShape t with
  | some e =>
      if chat_type ≠ "private" ∨ state = some waitingGmail then
        some (.gmailLookup e)
      else none
  | none => none

/-- The phone branch of the router. -/
def phoneRoute (chat_type : String) (state : Option String) (t : List Char) :
    Option Route :=
  if phoneShape t then
    if chat_type ≠ "private" ∨ state = some waitingPhone then
      some .phoneLookup
    else none
  else none

/-- The state-based elif chain of the router (src/bot.py lines 2445-2471). -/
def stateDispatch (st : String) (d : Option String) : Route :=
  if st == waitingRedeem then .redeemCodeInput
  else if st == waitingGmail then .gmailInput
  else if st == adminGenCodeState then .adminGenCodeInput
  else if st == adminBroadcastState then .adminBroadcastInput
  else if st == waitingSettingValue then .settingValueInput d
  else if st == waitingGroupId then .addGroupInput
  else if st == waitingChannelUsername then .addChannelInput
  else if st == waitingBanUserId then .banUserInput
  else if st == waitingUnbanUserId then .unbanUserInput
  else if st == waitingAdminId then .adminIdInput
  else if st == waitingBroadcastConfirm then .broadcastConfirmNote
  else .noRoute

/-- handle_text_messages (src/bot.py lines 2407-2471): which handler an
incoming plain-text message is dispatched to, given the chat type, the
stored conversation state row (state label and payload) and the raw text. -/
def handle_text_messages (chat_type : String)
    (st : Option (String × Option String)) (text : List Char) : Route :=
  let message_text := pyStrip text
  let state : Option String := st.map Prod.fst
  match vehicleRoute chat_type state message_text with
  | some r => r
  | none =>
  match emailRoute chat_type state message_text with
  | some r => r
  | none =>
  match phoneRoute chat_type state message_text with
  | some r => r
  | none =>
  match st with
  | some sd => stateDispatch sd.1 sd.2
  | none => .noRoute

/-- The conversation state that owns each handler: the waiting state whose
dispatch (by state table or by matching shape) invokes it. -/
def routeOwner : Route → Option String
  | .vehicleLookup _ => some waitingVehicle
  | .gmailLookup _ => some waitingGmail
  | .phoneLookup => some waitingPhone
  | .redeemCodeInput => some waitingRedeem
  | .gmailInput => some waitingGmail
  | .adminGenCodeInput => some adminGenCodeState
  | .adminBroadcastInput => some adminBroadcastState
  | .settingValueInput _ => some waitingSettingValue
  | .addGroupInput => some waitingGroupId
  | .addChannelInput => some waitingChannelUsername
  | .banUserInput => some waitingBanUserId
  | .unbanUserInput => some waitingUnbanUserId
  | .adminIdInput => some waitingAdminId
  | .broadcastConfirmNote => some waitingBroadcastConfirm
  | .noRoute => none

/-- increment_group_usage_db (src/bot.py lines 447-453). -/
def increment_group_usage_db (user_id : Nat) (s : Store) : Store :=
  updateUser user_id (fun u => { u with daily_searches := u.daily_searches + 1 }) s

/-- One public mutating operation of the store, as implemented by the
handlers above.  The freshness premise on the generated redeem code models
the `redeem_codes.code` PRIMARY KEY: inserting a duplicate raises an
IntegrityError inside the critical section before any commit, so the
handler never completes with a duplicate key. -/
inductive Step : Store → Store → Prop where
  | getOrCreate (cfg : Config) (now : Nat) (suffix : List Char) (uid : Nat)
      (un fn : Option String) (s : Store) :
      Step s (get_or_create_user cfg now suffix uid un fn s).2
  | dailyReset (today uid : Nat) (s : Store) :
      Step s (check_daily_reset today uid s).1
  | startCmd (cfg : Config) (now : Nat) (suffix : List Char)
      (args : Option (List Char)) (uid : Nat) (un fn : Option String) (s : Store) :
      Step s (start_flow cfg now suffix args uid un fn s)
  | phoneLookup (cfg : Config) (fetch_ok : Bool) (now : Nat)
      (suffix : List Char) (uid : Nat) (num : String) (s : Store) :
      Step s (handle_phone_number_private cfg fetch_ok now suffix uid num s).2
  | groupUsage (uid : Nat) (s : Store) :
      Step s (increment_group_usage_db uid s)
  | redeemStep (now : Nat) (code : String) (uid : Nat) (s : Store) :
      Step s (handle_redeem_code_input now code uid s).2
  | genCodeStep (uid : Nat) (is_admin : Bool) (parsed : Option (Rat × Int))
      (code : String) (now : Nat) (s : Store)
      (fresh : ∀ rc ∈ s.redeem_codes, rc.code ≠ code) :
      Step s (handle_admin_gen_code_input uid is_admin parsed code now s)
  | setStateStep (uid : Nat) (st : String) (d : Option String) (s : Store) :
      Step s (set_user_state uid st d s)
  | clearStateStep (uid : Nat) (s : Store) :
      Step s (clear_user_state uid s)

/-- Stores reachable from the fresh database by the public operations. -/
inductive Reachable : Store → Prop where
  | init : Reachable emptyStore
  | step {s t : Store} : Reachable s → Step s t → Reachable t

/-! Projection lemmas: which tables each elementary write leaves alone. -/

@[simp] lemma clear_users (u : Nat) (s : Store) :
    (clear_user_state u s).users = s.users := rfl

@[simp] lemma clear_codes (u : Nat) (s : Store) :
    (clear_user_state u s).redeem_codes = s.redeem_codes := rfl

@[simp] lemma clear_redemptions (u : Nat) (s : Store) :
    (clear_user_state u s).code_redemptions = s.code_redemptions := rfl

@[simp] lemma clear_logs (u : Nat) (s : Store) :
    (clear_user_state u s).search_logs = s.search_logs := rfl

@[simp] lemma updateUser_codes (v : Nat) (f : UserRow → UserRow) (s : Store) :
    (updateUser v f s).redeem_codes = s.redeem_codes := rfl

@[simp] lemma updateUser_redemptions (v : Nat) (f : UserRow → UserRow) (s : Store) :
    (updateUser v f s).code_redemptions = s.code_redemptions := rfl

@[simp] lemma updateUser_logs (v : Nat) (f : UserRow → UserRow) (s : Store) :
    (updateUser v f s).search_logs = s.search_logs := rfl

@[simp] lemma updateUser_states (v : Nat) (f : UserRow → UserRow) (s : Store) :
    (updateUser v f s).user_states = s.user_states := rfl

@[simp] lemma updateUser_users (v : Nat) (f : UserRow → UserRow) (s : Store) :
    (updateUser v f s).users
      = s.users.map (fun r => if r.user_id == v then f r else r) := rfl

/-- find? over an updateUser map, for predicates the rewrite leaves
invariant pointwise. -/
lemma users_find?_update (v : Nat) (f : UserRow → UserRow) (p : UserRow → Bool)
    (hp : ∀ r, p (if r.user_id == v then f r else r) = p r) (s : Store) :
    (updateUser v f s).users.find? p
      = (s.users.find? p).map (fun r => if r.user_id == v then f r else r) := by
  rw [updateUser_users, List.find?_map]
  have hcomp : (p ∘ fun r => if r.user_id == v then f r else r) = p := funext hp
  rw [hcomp]

/-- An update whose key is not in the table is the identity. -/
lemma updateUser_of_absent (v : Nat) (f : UserRow → UserRow) (s : Store)
    (h : s.users.find? (byId v) = none) : updateUser v f s = s := by
  have hall := List.find?_eq_none.mp h
  have : s.users.map (fun r => if r.user_id == v then f r else r) = s.users := by
    have := List.map_congr_left (l := s.users)
      (f := fun r => if r.user_id == v then f r else r) (g := id)
      (fun r hr => by
        have hb : (r.user_id == v) = false := by
          have := hall r hr
          simpa [byId] using this
        simp [hb])
    simpa using this
  cases s with
  | mk us cs rs ls sts => simp [updateUser] at this ⊢; exact this

/-- The store returned by get_or_create_user changes only the users table. -/
lemma get_or_create_codes (cfg : Config) (now : Nat) (suffix : List Char)
    (uid : Nat) (un fn : Option String) (s : Store) :
    (get_or_create_user cfg now suffix uid un fn s).2.redeem_codes = s.redeem_codes := by
  unfold get_or_create_user
  split <;> (try split) <;> rfl

lemma get_or_create_redemptions (cfg : Config) (now : Nat) (suffix : List Char)
    (uid : Nat) (un fn : Option String) (s : Store) :
    (get_or_create_user cfg now suffix uid un fn s).2.code_redemptions
      = s.code_redemptions := by
  unfold get_or_create_user
  split <;> (try split) <;> rfl

lemma check_daily_reset_codes (today uid : Nat) (s : Store) :
    (check_daily_reset today uid s).1.redeem_codes = s.redeem_codes := by
  unfold check_daily_reset
  split <;> (try split) <;> (try split) <;> rfl

lemma start_referral_codes (b : Rat) (rc : List Char) (uid : Nat)
    (ud : UserRow) (s : Store) :
    (start_referral_block b rc uid ud s).redeem_codes = s.redeem_codes := by
  unfold start_referral_block
  split <;> (try split) <;> rfl

lemma start_flow_codes (cfg : Config) (now : Nat) (suffix : List Char)
    (args : Option (List Char)) (uid : Nat) (un fn : Option String) (s : Store) :
    (start_flow cfg now suffix args uid un fn s).redeem_codes = s.redeem_codes := by
  unfold start_flow
  split
  · rw [check_daily_reset_codes, get_or_create_codes]
  · rw [start_referral_codes, check_daily_reset_codes, get_or_create_codes]

lemma phone_private_codes (cfg : Config) (fetch_ok : Bool) (now : Nat)
    (suffix : List Char) (uid : Nat) (num : String) (s : Store) :
    (handle_phone_number_private cfg fetch_ok now suffix uid num s).2.redeem_codes
      = s.redeem_codes := by
  unfold handle_phone_number_private
  split
  · rfl
  · dsimp only
    split
    · exact get_or_create_codes ..
    · rw [updateUser_codes]; exact get_or_create_codes ..

/-- The code lookup a redemption starts with
(`SELECT * FROM redeem_codes WHERE code = ? AND is_active = 1`). -/
def redeemLookup (code : String) (s : Store) : Option CodeRow :=
  s.redeem_codes.find? (fun rc => rc.code == code && rc.is_active)

/-- Whether a (code, user) redemption record exists. -/
def redemptionExists (code : String) (uid : Nat) (s : Store) : Bool :=
  s.code_redemptions.any (fun r => r.code == code && r.user_id == uid)

/-- Shared characterization of handle_redeem_code_input: result and table
effects in each of the four branches. -/
lemma redeem_spec (now : Nat) (code : String) (uid : Nat) (s : Store) :
    (redeemLookup code s = none →
      (handle_redeem_code_input now code uid s).1 = RedeemResult.codeNotFound ∧
      (handle_redeem_code_input now code uid s).2.users = s.users ∧
      (handle_redeem_code_input now code uid s).2.redeem_codes = s.redeem_codes ∧
      (handle_redeem_code_input now code uid s).2.code_redemptions = s.code_redemptions) ∧
    (∀ rc, redeemLookup code s = some rc → redemptionExists code uid s = true →
      (handle_redeem_code_input now code uid s).1 = RedeemResult.alreadyRedeemed ∧
      (handle_redeem_code_input now code uid s).2.users = s.users ∧
      (handle_redeem_code_input now code uid s).2.redeem_codes = s.redeem_codes ∧
      (handle_redeem_code_input now code uid s).2.code_redemptions = s.code_redemptions) ∧
    (∀ rc, redeemLookup code s = some rc → redemptionExists code uid s = false →
      rc.max_uses ≤ rc.used_count →
      (handle_redeem_code_input now code uid s).1 = RedeemResult.codeExhausted ∧
      (handle_redeem_code_input now code uid s).2.users = s.users ∧
      (handle_redeem_code_input now code uid s).2.redeem_codes = s.redeem_codes ∧
      (handle_redeem_code_input now code uid s).2.code_redemptions = s.code_redemptions) ∧
    (∀ rc, redeemLookup code s = some rc → redemptionExists code uid s = false →
      rc.used_count < rc.max_uses →
      (handle_redeem_code_input now code uid s).1 = RedeemResult.success ∧
      (handle_redeem_code_input now code uid s).2.users
        = s.users.map (fun u =>
            if u.user_id == uid then { u with credits := u.credits + rc.credits } else u) ∧
      (handle_redeem_code_input now code uid s).2.redeem_codes
        = s.redeem_codes.map (fun c =>
            if c.code == code then { c with used_count := c.used_count + 1 } else c) ∧
      (handle_redeem_code_input now code uid s).2.code_redemptions
        = s.code_redemptions ++ [⟨code, uid, now⟩] ∧
      (∀ u, getUser s uid = some u →
        getUser (handle_redeem_code_input now code uid s).2 uid
          = some { u with credits := u.credits + rc.credits })) := by
  unfold redeemLookup redemptionExists
  refine ⟨fun h => ?_, fun rc hrc hdup => ?_, fun rc hrc hdup hmax => ?_,
    fun rc hrc hdup hlt => ?_⟩
  · simp [handle_redeem_code_input, h]
  · simp [handle_redeem_code_input, hrc, hdup]
  · simp [handle_redeem_code_input, hrc, hdup, hmax]
  · have hnotmax : ¬ rc.max_uses ≤ rc.used_count := not_le.mpr hlt
    refine ⟨?_, ?_, ?_, ?_, ?_⟩
    · simp [handle_redeem_code_input, hrc, hdup, hnotmax]
    · simp [handle_redeem_code_input, hrc, hdup, hnotmax]
    · simp [handle_redeem_code_input, hrc, hdup, hnotmax]
    · simp [handle_redeem_code_input, hrc, hdup, hnotmax]
    · intro u hu
      have h1 : (handle_redeem_code_input now code uid s).2.users
          = s.users.map (fun r =>
              if r.user_id == uid then { r with credits := r.credits + rc.credits } else r) := by
        simp [handle_redeem_code_input, hrc, hdup, hnotmax]
      have hpu : byId uid u = true := List.find?_some hu
      unfold getUser at hu ⊢
      rw [h1, List.find?_map]
      have hcomp : ((byId uid) ∘ fun r =>
          if r.user_id == uid then { r with credits := r.credits + rc.credits } else r)
          = byId uid := by
        funext r
        by_cases hr : r.user_id = uid
        · simp [byId, hr]
        · simp [byId, hr]
      rw [hcomp, hu]
      have h3 : u.user_id = uid := by simpa [byId] using hpu
      simp [h3]

/-- C2: a redemption checks, in order: unknown-or-inactive code, an existing
(code, user) redemption record, exhaustion; the first failing check decides
the result and leaves the users, redeem_codes and code_redemptions tables
untouched; otherwise the credit, the used_count increment and the redemption
record are all applied in the one returned store. -/
theorem redeem_order_and_atomicity (now : Nat) (code : String) (uid : Nat) (s : Store) :
    (redeemLookup code s = none →
      (handle_redeem_code_input now code uid s).1 = RedeemResult.codeNotFound ∧
      (handle_redeem_code_input now code uid s).2.users = s.users ∧
      (handle_redeem_code_input now code uid s).2.redeem_codes = s.redeem_codes ∧
      (handle_redeem_code_input now code uid s).2.code_redemptions = s.code_redemptions) ∧
    (∀ rc, redeemLookup code s = some rc → redemptionExists code uid s = true →
      (handle_redeem_code_input now code uid s).1 = RedeemResult.alreadyRedeemed ∧
      (handle_redeem_code_input now code uid s).2.users = s.users ∧
      (handle_redeem_code_input now code uid s).2.redeem_codes = s.redeem_codes ∧
      (handle_redeem_code_input now code uid s).2.code_redemptions = s.code_redemptions) ∧
    (∀ rc, redeemLookup code s = some rc → redemptionExists code uid s = false →
      rc.max_uses ≤ rc.used_count →
      (handle_redeem_code_input now code uid s).1 = RedeemResult.codeExhausted ∧
      (handle_redeem_code_input now code uid s).2.users = s.users ∧
      (handle_redeem_code_input now code uid s).2.redeem_codes = s.redeem_codes ∧
      (handle_redeem_code_input now code uid s).2.code_redemptions = s.code_redemptions) ∧
    (∀ rc, redeemLookup code s = some rc → redemptionExists code uid s = false →
      rc.used_count < rc.max_uses →
      (handle_redeem_code_input now code uid s).1 = RedeemResult.success ∧
      (handle_redeem_code_input now code uid s).2.users
        = s.users.map (fun u =>
            if u.user_id == uid then { u with credits := u.credits + rc.credits } else u) ∧
      (handle_redeem_code_input now code uid s).2.redeem_codes
        = s.redeem_codes.map (fun c =>
            if c.code == code then { c with used_count := c.used_count + 1 } else c) ∧
      (handle_redeem_code_input now code uid s).2.code_redemptions
        = s.code_redemptions ++ [⟨code, uid, now⟩] ∧
      (∀ u, getUser s uid = some u →
        getUser (handle_redeem_code_input now code uid s).2 uid
          = some { u with credits := u.credits + rc.credits })) :=
  redeem_spec now code uid s

/-- A sample redeem code: value 5, two uses allowed, unused, active. -/
def c2Code : CodeRow := ⟨"AB", 5, 2, 0, 0, true⟩

/-- A sample user with 3 credits. -/
def c2User : UserRow :=
  ⟨7, none, none, 3, 0, some 0, 0, none, 0, [], some 0, false, false, false⟩

/-- A store holding just the sample user and sample code. -/
def c2Store : Store :=
  { users := [c2User], redeem_codes := [c2Code], code_redemptions := [],
    search_logs := [], user_states := [] }

/-- Witness for C2: on the sample store the success branch applies and
credits the user the code value. -/
theorem redeem_order_and_atomicity_witness :
    redeemLookup "AB" c2Store = some c2Code ∧
    redemptionExists "AB" 7 c2Store = false ∧
    c2Code.used_count < c2Code.max_uses ∧
    (handle_redeem_code_input 1 "AB" 7 c2Store).1 = RedeemResult.success ∧
    getUser (handle_redeem_code_input 1 "AB" 7 c2Store).2 7
      = some { c2User with credits := c2User.credits + c2Code.credits } := by
  have h := (redeem_order_and_atomicity 1 "AB" 7 c2Store).2.2.2 c2Code
    (by decide) (by decide) (by decide)
  exact ⟨by decide, by decide, by decide, h.1, h.2.2.2.2 c2User (by decide)⟩

/-- A store with the sample code but no user rows at all. -/
def c5Store : Store :=
  { users := [], redeem_codes := [c2Code], code_redemptions := [],
    search_logs := [], user_states := [] }

/-- Counterexample for C5: a redemption by a user id with no users row is
not a no-op — the balance update touches zero rows, yet used_count is
incremented and the redemption record is inserted. -/
theorem redeem_missing_user_counterexample :
    getUser c5Store 7 = none ∧
    (handle_redeem_code_input 0 "AB" 7 c5Store).1 = RedeemResult.success ∧
    (handle_redeem_code_input 0 "AB" 7 c5Store).2.redeem_codes
      = [⟨"AB", 5, 2, 1, 0, true⟩] ∧
    (handle_redeem_code_input 0 "AB" 7 c5Store).2.code_redemptions
      = [⟨"AB", 7, 0⟩] := by
  decide

/-- C5 (amended): when the redeeming user id has no row in the users table,
the zero-row balance update is silently ignored rather than detected: the
redemption still reports success, increments used_count and inserts the
redemption record, leaving the users table unchanged. -/
theorem redeem_missing_user_amended (now : Nat) (code : String) (uid : Nat)
    (s : Store) (hu : s.users.find? (byId uid) = none) (rc : CodeRow)
    (hrc : redeemLookup code s = some rc)
    (hdup : redemptionExists code uid s = false)
    (hlt : rc.used_count < rc.max_uses) :
    (handle_redeem_code_input now code uid s).1 = RedeemResult.success ∧
    (handle_redeem_code_input now code uid s).2.users = s.users ∧
    (handle_redeem_code_input now code uid s).2.redeem_codes
      = s.redeem_codes.map (fun c =>
          if c.code == code then { c with used_count := c.used_count + 1 } else c) ∧
    (handle_redeem_code_input now code uid s).2.code_redemptions
      = s.code_redemptions ++ [⟨code, uid, now⟩] := by
  obtain ⟨h1, h2, h3, h4, -⟩ :=
    (redeem_spec now code uid s).2.2.2 rc hrc hdup hlt
  refine ⟨h1, ?_, h3, h4⟩
  rw [h2]
  have hall := List.find?_eq_none.mp hu
  have : s.users.map (fun u =>
      if u.user_id == uid then { u with credits := u.credits + rc.credits } else u)
      = s.users.map id := by
    refine List.map_congr_left (fun r hr => ?_)
    have hb : (r.user_id == uid) = false := by
      have := hall r hr
      simpa [byId] using this
    simp [hb]
  simpa using this

/-- Witness for the amended C5 theorem at the concrete user-less store. -/
theorem redeem_missing_user_amended_witness :
    (handle_redeem_code_input 0 "AB" 7 c5Store).1 = RedeemResult.success ∧
    (handle_redeem_code_input 0 "AB" 7 c5Store).2.users = c5Store.users := by
  have h := redeem_missing_user_amended 0 "AB" 7 c5Store (by decide) c2Code
    (by decide) (by decide) (by decide)
  exact ⟨h.1, h.2.1⟩

/-- Well-formedness of the redeem_codes table maintained by the public
operations: keys unique (the PRIMARY KEY), usage within bounds, and values
positive as enforced by the admin input handler. -/
def CodeTableInv (s : Store) : Prop :=
  s.redeem_codes.Pairwise (fun a b => a.code ≠ b.code) ∧
  (∀ rc ∈ s.redeem_codes, rc.used_count ≤ rc.max_uses) ∧
  (∀ rc ∈ s.redeem_codes, 0 < rc.credits ∧ 0 < rc.max_uses)

lemma codeTableInv_congr {s t : Store}
    (he : t.redeem_codes = s.redeem_codes) (h : CodeTableInv s) : CodeTableInv t := by
  unfold CodeTableInv
  rw [he]
  exact h

/-- A redemption either leaves the codes table alone or bumps the row of a
looked-up, not-yet-exhausted code. -/
lemma redeem_codes_shape (now : Nat) (code : String) (uid : Nat) (s : Store) :
    (handle_redeem_code_input now code uid s).2.redeem_codes = s.redeem_codes ∨
    ∃ rc, redeemLookup code s = some rc ∧ rc.used_count < rc.max_uses ∧
      (handle_redeem_code_input now code uid s).2.redeem_codes
        = s.redeem_codes.map (fun c =>
            if c.code == code then { c with used_count := c.used_count + 1 } else c) := by
  rcases h : redeemLookup code s with _ | rc
  · exact Or.inl ((redeem_spec now code uid s).1 h).2.2.1
  · cases hd : redemptionExists code uid s with
    | true => exact Or.inl (((redeem_spec now code uid s).2.1) rc h hd).2.2.1
    | false =>
        by_cases hm : rc.max_uses ≤ rc.used_count
        · exact Or.inl (((redeem_spec now code uid s).2.2.1) rc h hd hm).2.2.1
        · refine Or.inr ⟨rc, rfl, not_le.mp hm, ?_⟩
          exact (((redeem_spec now code uid s).2.2.2) rc h hd (not_le.mp hm)).2.2.1

/-- The admin gen-code handler either inserts nothing into redeem_codes or
appends a fresh positive code with used_count 0. -/
lemma gen_codes_shape (uid : Nat) (admin : Bool) (parsed : Option (Rat × Int))
    (code : String) (now : Nat) (s : Store) :
    (handle_admin_gen_code_input uid admin parsed code now s).redeem_codes
      = s.redeem_codes ∨
    ∃ cr mu, parsed = some (cr, mu) ∧ 0 < cr ∧ 0 < mu ∧
      (handle_admin_gen_code_input uid admin parsed code now s).redeem_codes
        = s.redeem_codes ++ [⟨code, cr, mu, 0, now, true⟩] := by
  unfold handle_admin_gen_code_input
  cases admin with
  | false => exact Or.inl rfl
  | true =>
      cases parsed with
      | none => exact Or.inl rfl
      | some p =>
          by_cases hp : p.1 ≤ 0 ∨ p.2 ≤ 0
          · left
            simp only [Bool.not_true]
            cases p with
            | mk cr mu => simp [hp]
          · right
            cases p with
            | mk cr mu =>
                push_neg at hp
                exact ⟨cr, mu, rfl, hp.1, hp.2, by simp [not_or.mpr ⟨not_le.mpr hp.1, not_le.mpr hp.2⟩]⟩

/-- Every public operation preserves the codes-table invariant. -/
lemma step_codeTableInv {s t : Store} (hstep : Step s t) (h : CodeTableInv s) :
    CodeTableInv t := by
  cases hstep with
  | getOrCreate cfg now suffix uid un fn s =>
      exact codeTableInv_congr (get_or_create_codes ..) h
  | dailyReset today uid s =>
      exact codeTableInv_congr (check_daily_reset_codes ..) h
  | startCmd cfg now suffix args uid un fn s =>
      exact codeTableInv_congr (start_flow_codes ..) h
  | phoneLookup cfg fetch_ok now suffix uid num s =>
      exact codeTableInv_congr (phone_private_codes ..) h
  | groupUsage uid s =>
      exact codeTableInv_congr (updateUser_codes ..) h
  | setStateStep uid st d s => exact codeTableInv_congr rfl h
  | clearStateStep uid s => exact codeTableInv_congr rfl h
  | redeemStep now code uid s =>
      rcases redeem_codes_shape now code uid s with he | ⟨rc, hrc, hlt, he⟩
      · exact codeTableInv_congr he h
      · obtain ⟨hpw, hbd, hpos⟩ := h
        have hrc_mem : rc ∈ s.redeem_codes := List.mem_of_find?_eq_some hrc
        have hrc_code : rc.code = code := by
          have := List.find?_some hrc
          exact eq_of_beq (Bool.and_elim_left this)
        have hbump : ∀ c : CodeRow,
            (if c.code == code then { c with used_count := c.used_count + 1 } else c).code
              = c.code := by
          intro c
          by_cases hc : c.code = code <;> simp [hc]
        have hsymm : Symmetric (fun a b : CodeRow => a.code ≠ b.code) :=
          fun a b hab => hab.symm
        refine ⟨?_, ?_, ?_⟩
        · rw [he]
          exact List.pairwise_map.mpr (hpw.imp (fun hab => by rw [hbump, hbump]; exact hab))
        · rw [he]
          intro c' hc'
          obtain ⟨c, hcmem, hceq⟩ := List.mem_map.mp hc'
          by_cases hc : c.code = code
          · have hceq2 : c' = { c with used_count := c.used_count + 1 } := by
              rw [← hceq]; simp [hc]
            have hcrc : c = rc := by
              by_contra hne
              exact (List.Pairwise.forall hsymm hpw hcmem hrc_mem hne) (hc.trans hrc_code.symm)
            rw [hceq2, hcrc]
            exact Int.add_one_le_iff.mpr hlt
          · have hceq2 : c' = c := by rw [← hceq]; simp [hc]
            rw [hceq2]
            exact hbd c hcmem
        · rw [he]
          intro c' hc'
          obtain ⟨c, hcmem, hceq⟩ := List.mem_map.mp hc'
          have := hpos c hcmem
          by_cases hc : c.code = code
          · rw [← hceq]; simpa [hc] using this
          · rw [← hceq]; simpa [hc] using this
  | genCodeStep uid admin parsed code now s fresh =>
      rcases gen_codes_shape uid admin parsed code now s with he | ⟨cr, mu, hp, hcr, hmu, he⟩
      · exact codeTableInv_congr he h
      · obtain ⟨hpw, hbd, hpos⟩ := h
        refine ⟨?_, ?_, ?_⟩
        · rw [he]
          refine List.pairwise_append.mpr ⟨hpw, List.pairwise_singleton .., ?_⟩
          intro a ha b hb
          have hb2 : b = (⟨code, cr, mu, 0, now, true⟩ : CodeRow) := by simpa using hb
          rw [hb2]
          exact fresh a ha
        · rw [he]
          intro rc hrc
          rcases List.mem_append.mp hrc with hmem | hmem
          · exact hbd rc hmem
          · have : rc = (⟨code, cr, mu, 0, now, true⟩ : CodeRow) := by simpa using hmem
            rw [this]
            exact le_of_lt hmu
        · rw [he]
          intro rc hrc
          rcases List.mem_append.mp hrc with hmem | hmem
          · exact hpos rc hmem
          · have : rc = (⟨code, cr, mu, 0, now, true⟩ : CodeRow) := by simpa using hmem
            rw [this]
            exact ⟨hcr, hmu⟩

/-- The codes-table invariant holds in every reachable store. -/
lemma reachable_codeTableInv {s : Store} (h : Reachable s) : CodeTableInv s := by
  induction h with
  | init => exact ⟨List.Pairwise.nil, by simp [emptyStore], by simp [emptyStore]⟩
  | step hr hstep ih => exact step_codeTableInv hstep ih

/-- C6: in every store reachable by the public operations, used_count never
exceeds max_uses, and once used_count equals max_uses every further
redemption attempt of that code fails, active or not. -/
theorem code_usage_invariant (s : Store) (hs : Reachable s) :
    (∀ rc ∈ s.redeem_codes, rc.used_count ≤ rc.max_uses) ∧
    (∀ rc ∈ s.redeem_codes, rc.used_count = rc.max_uses →
      ∀ now uid, (handle_redeem_code_input now rc.code uid s).1 ≠ RedeemResult.success) := by
  obtain ⟨hpw, hbd, hpos⟩ := reachable_codeTableInv hs
  refine ⟨hbd, ?_⟩
  intro rc hmem heq now uid
  rcases h : redeemLookup rc.code s with _ | rc2
  · have hres := ((redeem_spec now rc.code uid s).1 h).1
    rw [hres]
    exact fun hcontra => RedeemResult.noConfusion hcontra
  · have h2 : List.find? (fun c => c.code == rc.code && c.is_active) s.redeem_codes
        = some rc2 := h
    have hrc2_mem : rc2 ∈ s.redeem_codes := List.mem_of_find?_eq_some h2
    have hp := List.find?_some h2
    have hcode : rc2.code = rc.code := eq_of_beq (Bool.and_elim_left hp)
    have hc2 : rc2 = rc := by
      by_contra hne
      exact (List.Pairwise.forall (fun a b hab => hab.symm) hpw hrc2_mem hmem hne) hcode
    cases hd : redemptionExists rc.code uid s with
    | true =>
        have hres := (((redeem_spec now rc.code uid s).2.1) rc2 h hd).1
        rw [hres]
        exact fun hcontra => RedeemResult.noConfusion hcontra
    | false =>
        have hm : rc2.max_uses ≤ rc2.used_count := by rw [hc2, heq]
        have hres := (((redeem_spec now rc.code uid s).2.2.1) rc2 h hd hm).1
        rw [hres]
        exact fun hcontra => RedeemResult.noConfusion hcontra

/-- A store holding a one-use code just created by the admin handler. -/
def c6Store1 : Store :=
  handle_admin_gen_code_input 1 true (some (5, 1)) "AB" 0 emptyStore

/-- The same store after user 7 redeemed the one-use code: used_count has
reached max_uses. -/
def c6Store2 : Store := (handle_redeem_code_input 0 "AB" 7 c6Store1).2

lemma c6Store2_reachable : Reachable c6Store2 :=
  Reachable.step
    (Reachable.step Reachable.init
      (Step.genCodeStep 1 true (some (5, 1)) "AB" 0 emptyStore
        (by simp [emptyStore])))
    (Step.redeemStep 0 "AB" 7 c6Store1)

/-- Witness for C6: the concrete exhausted one-use code rejects another
redemption attempt. -/
theorem code_usage_invariant_witness :
    (∀ rc ∈ c6Store2.redeem_codes, rc.used_count ≤ rc.max_uses) ∧
    (handle_redeem_code_input 1 "AB" 8 c6Store2).1 ≠ RedeemResult.success := by
  have h := code_usage_invariant c6Store2 c6Store2_reachable
  refine ⟨h.1, ?_⟩
  exact h.2 ⟨"AB", 5, 1, 1, 0, true⟩ (by decide) (by decide) 1 8

/-- A Python float value as produced by float() on the credits part of the
admin gen-code input: a finite number, an infinity, or nan — float("nan")
and float("inf") parse successfully. -/
inductive PyFloat where
  | finite (q : Rat)
  | inf
  | negInf
  | nan
  deriving DecidableEq, Repr

/-- Python float comparison `x <= y` under IEEE 754: every comparison
involving nan is False; -inf is below and inf above every non-nan value. -/
def pyLe : PyFloat → PyFloat → Bool
  | .nan, _ => false
  | _, .nan => false
  | .negInf, _ => true
  | _, .inf => true
  | .inf, _ => false
  | .finite a, .finite b => decide (a ≤ b)
  | .finite _, .negInf => false

/-- A redeem_codes row at Python-float fidelity for the credits column (the
sqlite3 driver binds float("nan") as NULL and infinities as REAL 9e999; what
matters here is that the stored value is not a positive number). -/
structure CodeRowPy where
  code : String
  credits : PyFloat
  max_uses : Int
  used_count : Int
  created_at : Nat
  is_active : Bool
  deriving DecidableEq, Repr

/-- handle_admin_gen_code_input (src/bot.py lines 1988-2025) at Python-float
fidelity, restricted to its effect on the redeem_codes table: the
float()/int() parse is the optional pre-parsed pair — none when
`credits,max_uses` does not split or parse, and float() also accepts nan and
the infinities — and the guard is the Python test `credits <= 0 or
max_uses <= 0` (bot.py line 2000), which is False for nan. -/
def handle_admin_gen_code_input_py (is_admin : Bool)
    (parsed : Option (PyFloat × Int)) (code : String) (now : Nat)
    (codes : List CodeRowPy) : List CodeRowPy :=
  if !is_admin then codes
  else
    match parsed with
    | none => codes
    | some (credits, max_uses) =>
        if pyLe credits (PyFloat.finite 0) || max_uses ≤ 0 then codes
        else codes ++ [⟨code, credits, max_uses, 0, now, true⟩]

/-- The claim's notion of a strictly positive credit value, at float
fidelity: a finite, strictly positive number. -/
def strictlyPositiveCredit : PyFloat → Bool
  | .finite q => decide (0 < q)
  | _ => false

/-- C10: the admin gen-code guard mismarks non-finite floats.  The input
"nan,5" parses (float("nan") succeeds), the Python test nan <= 0 at bot.py
line 2000 is False, so no ValueError is raised and the INSERT at line 2007
stores a redeem code whose credit value is nan — not a strictly positive
value, contradicting the handler's own error message that credits must be
positive.  Genuinely non-positive inputs (0, -inf) are rejected as the
claim says. -/
theorem gen_code_nan_inserts_nonpositive :
    handle_admin_gen_code_input_py true (some (PyFloat.nan, 5)) "ZZ" 3 []
      = [⟨"ZZ", PyFloat.nan, 5, 0, 3, true⟩] ∧
    strictlyPositiveCredit PyFloat.nan = false ∧
    handle_admin_gen_code_input_py true (some (PyFloat.finite 0, 5)) "ZZ" 3 []
      = [] ∧
    handle_admin_gen_code_input_py true (some (PyFloat.negInf, 5)) "ZZ" 3 []
      = [] := by
  decide

/-- The row a successful user lookup returns carries the looked-up id. -/
lemma user_id_of_getUser {s : Store} {uid : Nat} {u : UserRow}
    (h : getUser s uid = some u) : u.user_id = uid := by
  have h2 : List.find? (byId uid) s.users = some u := h
  have := List.find?_some h2
  simpa [byId] using this

/-- getUser after an id-preserving update: the looked-up row gets the
rewrite applied when its id matches the updated one. -/
lemma getUser_updateUser (v uid : Nat) (f : UserRow → UserRow)
    (hf : ∀ r, (f r).user_id = r.user_id) (s : Store) :
    getUser (updateUser v f s) uid
      = (getUser s uid).map (fun r => if r.user_id == v then f r else r) := by
  unfold getUser
  exact users_find?_update v f (byId uid)
    (fun r => by by_cases hr : r.user_id == v <;> simp [byId, hf, hr]) s

/-- Updating one user's row does not change what getUser returns for any
other id. -/
lemma getUser_updateUser_other (v uid : Nat) (hne : uid ≠ v)
    (f : UserRow → UserRow) (hf : ∀ r, (f r).user_id = r.user_id) (s : Store) :
    getUser (updateUser v f s) uid = getUser s uid := by
  rw [getUser_updateUser v uid f hf s]
  rcases hu : getUser s uid with _ | u
  · rfl
  · have hid : u.user_id = uid := user_id_of_getUser hu
    have : (u.user_id == v) = false := by
      rw [hid]
      exact beq_eq_false_iff_ne.mpr hne
    simp [this]
    intro hv
    exact absurd (hid.symm.trans hv) hne

/-- getUser after an update at the same id. -/
lemma getUser_updateUser_same (v : Nat) (f : UserRow → UserRow)
    (hf : ∀ r, (f r).user_id = r.user_id) (s : Store) (u : UserRow)
    (hu : getUser s v = some u) :
    getUser (updateUser v f s) v = some (f u) := by
  rw [getUser_updateUser v v f hf s, hu]
  have hid : u.user_id = v := user_id_of_getUser hu
  simp [hid]

/-- C7: running the daily-quota reset a second time on the same calendar day
is a no-op returning false, and running it when the calendar date has
advanced past the stored last-reset date zeroes the daily counter, stamps
the new date, returns true, and touches no other user. -/
theorem daily_reset_idempotent_and_advance (today uid : Nat) (s : Store) :
    (check_daily_reset today uid (check_daily_reset today uid s).1
        = ((check_daily_reset today uid s).1, false)) ∧
    (∀ u d, getUser s uid = some u → u.last_reset = some d → d < today →
      (check_daily_reset today uid s).2 = true ∧
      getUser (check_daily_reset today uid s).1 uid = some (resetRow today u) ∧
      (∀ v, v ≠ uid → getUser (check_daily_reset today uid s).1 v = getUser s v)) := by
  have hgsame : ∀ (t : Store) (u : UserRow), getUser t uid = some u →
      getUser (updateUser uid (resetRow today) t) uid = some (resetRow today u) :=
    fun t u hu => getUser_updateUser_same uid (resetRow today) (fun r => rfl) t u hu
  have hsecond : ∀ (t : Store) (u : UserRow), getUser t uid = some u →
      u.last_reset = some today →
      check_daily_reset today uid t = (t, false) := by
    intro t u hu hlr
    unfold getUser at hu
    unfold check_daily_reset
    rw [hu]
    dsimp only
    rw [hlr]
    simp [lt_irrefl]
  constructor
  · rcases hu : getUser s uid with _ | u
    · have h1 : check_daily_reset today uid s = (s, false) := by
        unfold getUser at hu
        unfold check_daily_reset
        rw [hu]
      rw [h1]
      exact h1
    · cases hlr : u.last_reset with
      | none =>
          have h1 : check_daily_reset today uid s
              = (updateUser uid (resetRow today) s, true) := by
            unfold getUser at hu
            unfold check_daily_reset
            rw [hu]
            dsimp only
            rw [hlr]
          rw [h1]
          exact hsecond _ (resetRow today u) (hgsame s u hu) rfl
      | some d =>
          by_cases hd : d < today
          · have h1 : check_daily_reset today uid s
                = (updateUser uid (resetRow today) s, true) := by
              unfold getUser at hu
              unfold check_daily_reset
              rw [hu]
              dsimp only
              rw [hlr]
              simp [hd]
            rw [h1]
            exact hsecond _ (resetRow today u) (hgsame s u hu) rfl
          · have h1 : check_daily_reset today uid s = (s, false) := by
              unfold getUser at hu
              unfold check_daily_reset
              rw [hu]
              dsimp only
              rw [hlr]
              simp [hd]
            rw [h1]
            exact h1
  · intro u d hu hlr hd
    have h1 : check_daily_reset today uid s
        = (updateUser uid (resetRow today) s, true) := by
      have hu2 : List.find? (byId uid) s.users = some u := hu
      unfold check_daily_reset
      rw [hu2]
      dsimp only
      rw [hlr]
      simp [hd]
    refine ⟨by rw [h1], ?_, ?_⟩
    · rw [h1]
      exact hgsame s u hu
    · intro v hv
      rw [h1]
      exact getUser_updateUser_other uid v hv (resetRow today) (fun r => rfl) s

/-- A user whose last reset was on day 3. -/
def c7User : UserRow :=
  ⟨7, none, none, 3, 2, some 3, 0, none, 0, [], some 0, false, false, false⟩

/-- A store holding just that user. -/
def c7Store : Store :=
  { users := [c7User], redeem_codes := [], code_redemptions := [],
    search_logs := [], user_states := [] }

/-- Witness for C7 at day 5: the first run resets the counter, the second
run on the same day is a no-op returning false. -/
theorem daily_reset_idempotent_and_advance_witness :
    (check_daily_reset 5 7 (check_daily_reset 5 7 c7Store).1
        = ((check_daily_reset 5 7 c7Store).1, false)) ∧
    (check_daily_reset 5 7 c7Store).2 = true ∧
    getUser (check_daily_reset 5 7 c7Store).1 7 = some (resetRow 5 c7User) := by
  have h := daily_reset_idempotent_and_advance 5 7 c7Store
  have h2 := h.2 c7User 3 (by decide) (by decide) (by decide)
  exact ⟨h.1, h2.1, h2.2.1⟩

/-- The account fields of a user row other than the display-name fields:
balance, quota counters, reset date, lifetime counter, referral data. -/
def ledgerFields (r : UserRow) :
    Rat × Nat × Option Nat × Nat × Option Nat × Nat × List Char :=
  (r.credits, r.daily_searches, r.last_reset, r.total_searches,
   r.referred_by, r.referral_count, r.referral_code)

/-- C8: get-or-create for an unknown id appends exactly one row, with the
joining bonus as balance, a referral code derived from the id, and
last-reset now; for a known id it returns the stored row and changes no
account field other than the display names, for any user. -/
theorem get_or_create_user_spec (cfg : Config) (now : Nat) (suffix : List Char)
    (uid : Nat) (un fn : Option String) (s : Store) :
    (getUser s uid = none →
      (get_or_create_user cfg now suffix uid un fn s).1.credits = cfg.joining_bonus ∧
      (get_or_create_user cfg now suffix uid un fn s).1.referral_code
        = generate_referral_code uid suffix ∧
      (get_or_create_user cfg now suffix uid un fn s).1.last_reset = some now ∧
      (get_or_create_user cfg now suffix uid un fn s).1.user_id = uid ∧
      (get_or_create_user cfg now suffix uid un fn s).2.users
        = s.users ++ [(get_or_create_user cfg now suffix uid un fn s).1] ∧
      getUser (get_or_create_user cfg now suffix uid un fn s).2 uid
        = some (get_or_create_user cfg now suffix uid un fn s).1) ∧
    (∀ u, getUser s uid = some u →
      (get_or_create_user cfg now suffix uid un fn s).1 = u ∧
      (get_or_create_user cfg now suffix uid un fn s).2.users.length
        = s.users.length ∧
      (∀ v, (getUser (get_or_create_user cfg now suffix uid un fn s).2 v).map ledgerFields
          = (getUser s v).map ledgerFields)) := by
  constructor
  · intro hu
    have hu2 : s.users.find? (byId uid) = none := hu
    unfold get_or_create_user
    rw [hu2]
    refine ⟨rfl, rfl, rfl, rfl, rfl, ?_⟩
    show List.find? (byId uid) (s.users ++ [_]) = _
    rw [List.find?_append, hu2]
    simp [byId, newUserRow]
  · intro u hu
    have hu2 : s.users.find? (byId uid) = some u := hu
    unfold get_or_create_user
    rw [hu2]
    dsimp only
    by_cases hn : (un.isSome || fn.isSome) = true
    · rw [if_pos hn]
      refine ⟨rfl, ?_, ?_⟩
      · show (s.users.map _).length = s.users.length
        exact List.length_map ..
      · intro v
        rw [getUser_updateUser uid v (refreshNames un fn) (fun r => rfl) s]
        rcases hv : getUser s v with _ | r
        · rfl
        · by_cases hr : r.user_id = uid <;> simp [hr, ledgerFields, refreshNames]
    · rw [if_neg hn]
      exact ⟨rfl, rfl, fun v => rfl⟩

/-- Witness for C8: user 1001 starting on the empty store gets the joining
bonus 5 and a referral code derived from 1001; re-running on the resulting
store returns the same row with the ledger fields untouched. -/
theorem get_or_create_user_spec_witness :
    (get_or_create_user ⟨5, 1/2, 1, 3⟩ 0 "abcdef".toList 1001 none none emptyStore).1.credits
      = 5 ∧
    (get_or_create_user ⟨5, 1/2, 1, 3⟩ 0 "abcdef".toList 1001 none none emptyStore).1.referral_code
      = generate_referral_code 1001 "abcdef".toList := by
  have h := (get_or_create_user_spec ⟨5, 1/2, 1, 3⟩ 0 "abcdef".toList 1001 none none
    emptyStore).1 (by decide)
  exact ⟨h.1, h.2.1⟩

/-- The referral-relevant account fields: balance, referrer, referral count. -/
def refFields (r : UserRow) : Rat × Option Nat × Nat :=
  (r.credits, r.referred_by, r.referral_count)

/-- An id-preserving, observation-preserving row rewrite leaves the
observation of every lookup unchanged. -/
lemma getUser_map_fields {β : Type} (obs : UserRow → β) (v uidk : Nat)
    (f : UserRow → UserRow) (hf : ∀ r, (f r).user_id = r.user_id)
    (hobs : ∀ r, obs (f r) = obs r) (t : Store) :
    (getUser (updateUser uidk f t) v).map obs = (getUser t v).map obs := by
  rw [getUser_updateUser uidk v f hf t]
  rcases getUser t v with _ | r
  · rfl
  · by_cases hr : r.user_id = uidk <;> simp [hr, hobs]

/-- get_or_create_user on an existing row: returns the stored row, and at
most refreshes the display names. -/
lemma get_or_create_existing (cfg : Config) (now : Nat) (suffix : List Char)
    (uid : Nat) (un fn : Option String) (s : Store) (u : UserRow)
    (h : s.users.find? (byId uid) = some u) :
    get_or_create_user cfg now suffix uid un fn s
      = (u, if (un.isSome || fn.isSome) = true
            then updateUser uid (refreshNames un fn) s else s) := by
  unfold get_or_create_user
  rw [h]
  dsimp only
  by_cases hn : (un.isSome || fn.isSome) = true <;> simp [hn]

/-- get_or_create_user on an unknown id: appends the new row. -/
lemma get_or_create_new (cfg : Config) (now : Nat) (suffix : List Char)
    (uid : Nat) (un fn : Option String) (s : Store)
    (h : s.users.find? (byId uid) = none) :
    get_or_create_user cfg now suffix uid un fn s
      = (newUserRow cfg now suffix uid un fn,
         { s with users := s.users ++ [newUserRow cfg now suffix uid un fn] }) := by
  unfold get_or_create_user
  rw [h]

/-- The daily reset is a no-op when the stored last-reset date is today. -/
lemma check_daily_reset_same_day (today uid : Nat) (t : Store) (u : UserRow)
    (hu : getUser t uid = some u) (hlr : u.last_reset = some today) :
    check_daily_reset today uid t = (t, false) := by
  have hu2 : List.find? (byId uid) t.users = some u := hu
  unfold check_daily_reset
  rw [hu2]
  dsimp only
  rw [hlr]
  simp [lt_irrefl]

/-- The daily reset preserves any observation that resetRow preserves, for
every user. -/
lemma check_daily_reset_map (today uidk : Nat) (t : Store) {β : Type}
    (obs : UserRow → β) (hobs : ∀ r, obs (resetRow today r) = obs r) (v : Nat) :
    (getUser (check_daily_reset today uidk t).1 v).map obs
      = (getUser t v).map obs := by
  unfold check_daily_reset
  cases h : List.find? (byId uidk) t.users with
  | none => rfl
  | some r =>
      dsimp only
      cases hlr : r.last_reset with
      | none => exact getUser_map_fields obs v uidk (resetRow today) (fun r => rfl) hobs t
      | some d =>
          by_cases hd : d < today
          · simp only [if_pos hd]
            exact getUser_map_fields obs v uidk (resetRow today) (fun r => rfl) hobs t
          · simp only [if_neg hd]

/-- The referral block fires when the code resolves to a different user and
the starter has no referrer yet. -/
lemma start_referral_applies (b : Rat) (rc : List Char) (uid : Nat)
    (ud : UserRow) (s : Store) (inviter : UserRow)
    (hinv : s.users.find? (byCode rc) = some inviter)
    (hne : inviter.user_id ≠ uid) (hrb : ud.referred_by = none) :
    start_referral_block b rc uid ud s
      = updateUser inviter.user_id (addReferralBonus b)
          (updateUser uid (setReferredBy inviter.user_id) s) := by
  unfold start_referral_block
  rw [hinv]
  dsimp only
  rw [if_pos ⟨hne, hrb⟩]

/-- The referral block is a no-op once the starter already has a referrer. -/
lemma start_referral_noop_of_referred (b : Rat) (rc : List Char) (uid : Nat)
    (ud : UserRow) (t : Store) (h : ud.referred_by ≠ none) :
    start_referral_block b rc uid ud t = t := by
  unfold start_referral_block
  cases hf : List.find? (byCode rc) t.users with
  | none => rfl
  | some referrer =>
      dsimp only
      rw [if_neg (fun hc => h hc.2)]

/-- The referral block is a no-op when the code belongs to the starter. -/
lemma start_referral_noop_self (b : Rat) (rc : List Char) (uid : Nat)
    (ud : UserRow) (t : Store) (inv2 : UserRow)
    (hf : t.users.find? (byCode rc) = some inv2) (heq : inv2.user_id = uid) :
    start_referral_block b rc uid ud t = t := by
  unfold start_referral_block
  rw [hf]
  dsimp only
  rw [if_neg (fun hc => hc.1 heq)]

/-- C3: the /start referral flow sets referred_by only when it is unset and
the code owner is a different user (the two no-op conjuncts), and running
the flow twice for the same (new user, inviter) pair credits the inviter
the referral bonus exactly once and bumps referral_count exactly once; the
new user ends with the joining bonus, the inviter as referrer and no
referrals of their own. -/
theorem referral_award_idempotent (cfg : Config) (now1 now2 : Nat)
    (suf1 suf2 : List Char) (rc : List Char) (uid : Nat)
    (un1 fn1 un2 fn2 : Option String) (s : Store) (inviter : UserRow)
    (hinv : s.users.find? (byCode rc) = some inviter)
    (hid : s.users.find? (byId inviter.user_id) = some inviter)
    (hne : inviter.user_id ≠ uid)
    (hnew : s.users.find? (byId uid) = none) :
    (∀ b rc2 uid2 ud t, ud.referred_by ≠ none →
        start_referral_block b rc2 uid2 ud t = t) ∧
    (∀ b rc2 uid2 ud t inv2, t.users.find? (byCode rc2) = some inv2 →
        inv2.user_id = uid2 → start_referral_block b rc2 uid2 ud t = t) ∧
    (getUser (start_flow cfg now2 suf2 (some rc) uid un2 fn2
        (start_flow cfg now1 suf1 (some rc) uid un1 fn1 s)) uid).map refFields
      = some (cfg.joining_bonus, some inviter.user_id, 0) ∧
    (getUser (start_flow cfg now2 suf2 (some rc) uid un2 fn2
        (start_flow cfg now1 suf1 (some rc) uid un1 fn1 s)) inviter.user_id).map refFields
      = some (inviter.credits + cfg.referral_bonus, inviter.referred_by,
              inviter.referral_count + 1) := by
  have huidne : uid ≠ inviter.user_id := Ne.symm hne
  set u0 : UserRow := newUserRow cfg now1 suf1 uid un1 fn1 with hu0
  set t0 : Store := { s with users := s.users ++ [u0] } with ht0
  have hget0 : getUser t0 uid = some u0 := by
    show List.find? (byId uid) (s.users ++ [u0]) = some u0
    rw [List.find?_append, hnew]
    simp [byId, hu0, newUserRow]
  have hinv0 : t0.users.find? (byCode rc) = some inviter := by
    show List.find? (byCode rc) (s.users ++ [u0]) = some inviter
    rw [List.find?_append, hinv]
    rfl
  have hid0 : getUser t0 inviter.user_id = some inviter := by
    show List.find? (byId inviter.user_id) (s.users ++ [u0]) = some inviter
    rw [List.find?_append, hid]
    rfl
  have h1 : start_flow cfg now1 suf1 (some rc) uid un1 fn1 s
      = updateUser inviter.user_id (addReferralBonus cfg.referral_bonus)
          (updateUser uid (setReferredBy inviter.user_id) t0) := by
    unfold start_flow
    rw [get_or_create_new cfg now1 suf1 uid un1 fn1 s hnew]
    dsimp only
    rw [check_daily_reset_same_day now1 uid t0 u0 hget0 (by rw [hu0]; rfl)]
    dsimp only
    exact start_referral_applies cfg.referral_bonus rc uid u0 t0 inviter hinv0 hne
      (by rw [hu0]; rfl)
  set sA : Store := updateUser uid (setReferredBy inviter.user_id) t0 with hsA
  set t1 : Store := updateUser inviter.user_id (addReferralBonus cfg.referral_bonus) sA
    with ht1
  have hgt1_uid : getUser t1 uid = some (setReferredBy inviter.user_id u0) := by
    rw [ht1, getUser_updateUser_other inviter.user_id uid huidne
      (addReferralBonus cfg.referral_bonus) (fun r => rfl) sA, hsA]
    exact getUser_updateUser_same uid (setReferredBy inviter.user_id)
      (fun r => rfl) t0 u0 hget0
  have hgt1_inv : getUser t1 inviter.user_id
      = some (addReferralBonus cfg.referral_bonus inviter) := by
    rw [ht1]
    refine getUser_updateUser_same inviter.user_id
      (addReferralBonus cfg.referral_bonus) (fun r => rfl) sA inviter ?_
    rw [hsA, getUser_updateUser_other uid inviter.user_id hne
      (setReferredBy inviter.user_id) (fun r => rfl) t0]
    exact hid0
  have hrun2 : ∀ v,
      (getUser (start_flow cfg now2 suf2 (some rc) uid un2 fn2 t1) v).map refFields
        = (getUser t1 v).map refFields := by
    intro v
    unfold start_flow
    rw [get_or_create_existing cfg now2 suf2 uid un2 fn2 t1
      (setReferredBy inviter.user_id u0) hgt1_uid]
    dsimp only
    rw [start_referral_noop_of_referred cfg.referral_bonus rc uid
      (setReferredBy inviter.user_id u0) _ (by simp [setReferredBy])]
    by_cases hn : (un2.isSome || fn2.isSome) = true
    · simp only [if_pos hn]
      rw [check_daily_reset_map now2 uid _ refFields (fun r => rfl) v]
      exact getUser_map_fields refFields v uid (refreshNames un2 fn2)
        (fun r => rfl) (fun r => rfl) t1
    · simp only [if_neg hn]
      exact check_daily_reset_map now2 uid t1 refFields (fun r => rfl) v
  refine ⟨fun b rc2 uid2 ud t h => start_referral_noop_of_referred b rc2 uid2 ud t h,
    fun b rc2 uid2 ud t inv2 hf heq => start_referral_noop_self b rc2 uid2 ud t inv2 hf heq,
    ?_, ?_⟩
  · rw [h1, hrun2 uid, hgt1_uid]
    simp [refFields, setReferredBy, hu0, newUserRow]
  · rw [h1, hrun2 inviter.user_id, hgt1_inv]
    simp [refFields, addReferralBonus]

/-- Sample settings: joining bonus 5, referral bonus 1/2, search cost 1,
three free group searches. -/
def c3Cfg : Config := ⟨5, 1/2, 1, 3⟩

/-- An inviter account owning referral code "ABC". -/
def c3Inviter : UserRow :=
  ⟨1001, none, none, 5, 0, some 0, 0, none, 0, ['A', 'B', 'C'], some 0,
   false, false, false⟩

/-- A store holding just the inviter. -/
def c3Store : Store :=
  { users := [c3Inviter], redeem_codes := [], code_redemptions := [],
    search_logs := [], user_states := [] }

/-- Witness for C3: user 1002 starting twice with code "ABC" leaves the
inviter with exactly one bonus and one referral, and 1002 referred by 1001
holding the joining bonus. -/
theorem referral_award_idempotent_witness :
    (getUser (start_flow c3Cfg 1 ['b', 'b', 'b', 'b', 'b', 'b']
        (some ['A', 'B', 'C']) 1002 none none
        (start_flow c3Cfg 0 ['a', 'a', 'a', 'a', 'a', 'a']
          (some ['A', 'B', 'C']) 1002 none none c3Store)) 1002).map refFields
      = some ((5 : Rat), some 1001, 0) ∧
    (getUser (start_flow c3Cfg 1 ['b', 'b', 'b', 'b', 'b', 'b']
        (some ['A', 'B', 'C']) 1002 none none
        (start_flow c3Cfg 0 ['a', 'a', 'a', 'a', 'a', 'a']
          (some ['A', 'B', 'C']) 1002 none none c3Store)) 1001).map refFields
      = some ((5 : Rat) + 1/2, none, 0 + 1) := by
  have h := referral_award_idempotent c3Cfg 0 1
    ['a', 'a', 'a', 'a', 'a', 'a'] ['b', 'b', 'b', 'b', 'b', 'b']
    ['A', 'B', 'C'] 1002 none none none none c3Store c3Inviter
    (by decide) (by decide) (by decide) (by decide)
  exact ⟨h.2.2.1, h.2.2.2⟩

/-- Counterexample for C9: user ids 123 and 1234 can draw valid hex
suffixes whose 8-character truncations coincide, so the derivation is not
injective across accounts. -/
theorem referral_code_collision :
    generate_referral_code 123 ['4', '5', '6', '7', '8', '9']
      = generate_referral_code 1234 ['5', '6', '7', '8', '9', '1'] ∧
    (123 : Nat) ≠ 1234 := by
  decide

lemma decRepAux_small (fuel m : Nat) (h : m < 10) (hf : 1 ≤ fuel) :
    decRepAux fuel m = [digitChar m] := by
  cases fuel with
  | zero => exact absurd hf (by simp)
  | succ k => simp [decRepAux, h]

lemma decRep_small (n : Nat) (h : n < 10) : decRep n = [digitChar n] :=
  decRepAux_small (n + 1) n h (Nat.succ_le_succ (Nat.zero_le n))

lemma decRep_two (n : Nat) (h1 : 10 ≤ n) (h2 : n < 100) :
    decRep n = [digitChar (n / 10), digitChar (n % 10)] := by
  have hn : ¬ n < 10 := not_lt.mpr h1
  have hdiv : n / 10 < 10 := Nat.div_lt_of_lt_mul (by omega)
  unfold decRep
  rw [show decRepAux (n + 1) n
      = if n < 10 then [digitChar n]
        else decRepAux n (n / 10) ++ [digitChar (n % 10)] from rfl]
  rw [if_neg hn, decRepAux_small n (n / 10) hdiv (by omega)]
  rfl

lemma digitChar_inj : ∀ a < 10, ∀ b < 10, digitChar a = digitChar b → a = b := by
  decide

/-- C9 (amended): the referral-code derivation prefixes the decimal form of
the id and truncates to 8 characters, so it is injective only while the
digits survive the truncation: any two distinct user ids below 100 get
distinct codes whatever 6-character suffixes are drawn, while longer ids
can collide (see the counterexample). -/
theorem referral_code_injective_below_100 (a b : Nat) (ha : a < 100)
    (hb : b < 100) (hab : a ≠ b) (s t : List Char) (hs : s.length = 6)
    (ht : t.length = 6) :
    generate_referral_code a s ≠ generate_referral_code b t := by
  intro heq
  unfold generate_referral_code at heq
  by_cases ha10 : a < 10 <;> by_cases hb10 : b < 10
  · rw [decRep_small a ha10, decRep_small b hb10] at heq
    rw [List.take_of_length_le (by simp [hs]),
        List.take_of_length_le (by simp [ht])] at heq
    have : digitChar a = digitChar b := by
      have := congrArg (fun l => l.headI) heq
      simpa using this
    exact hab (digitChar_inj a ha10 b hb10 this)
  · rw [decRep_small a ha10, decRep_two b (not_lt.mp hb10) hb] at heq
    rw [List.take_of_length_le (by simp [hs]),
        List.take_of_length_le (by simp [ht])] at heq
    have := congrArg List.length heq
    simp [hs, ht] at this
  · rw [decRep_two a (not_lt.mp ha10) ha, decRep_small b hb10] at heq
    rw [List.take_of_length_le (by simp [hs]),
        List.take_of_length_le (by simp [ht])] at heq
    have := congrArg List.length heq
    simp [hs, ht] at this
  · rw [decRep_two a (not_lt.mp ha10) ha, decRep_two b (not_lt.mp hb10) hb] at heq
    rw [List.take_of_length_le (by simp [hs]),
        List.take_of_length_le (by simp [ht])] at heq
    have hd1 : digitChar (a / 10) = digitChar (b / 10) := by
      have := congrArg (fun l => l.headI) heq
      simpa using this
    have hd2 : digitChar (a % 10) = digitChar (b % 10) := by
      have := congrArg (fun l => l.tail.headI) heq
      simpa using this
    have hdiva : a / 10 < 10 := Nat.div_lt_of_lt_mul (by omega)
    have hdivb : b / 10 < 10 := Nat.div_lt_of_lt_mul (by omega)
    have e1 : a / 10 = b / 10 := digitChar_inj (a / 10) hdiva (b / 10) hdivb hd1
    have e2 : a % 10 = b % 10 :=
      digitChar_inj (a % 10) (Nat.mod_lt a (by omega)) (b % 10)
        (Nat.mod_lt b (by omega)) hd2
    have := Nat.div_add_mod a 10
    have := Nat.div_add_mod b 10
    omega

/-- Witness for the amended C9 theorem: ids 7 and 42 with arbitrary hex
suffixes give different codes. -/
theorem referral_code_injective_below_100_witness :
    generate_referral_code 7 ['0', '1', '2', '3', '4', '5']
      ≠ generate_referral_code 42 ['0', '1', '2', '3', '4', '5'] :=
  referral_code_injective_below_100 7 42 (by decide) (by decide) (by decide)
    ['0', '1', '2', '3', '4', '5'] ['0', '1', '2', '3', '4', '5']
    (by decide) (by decide)

/-- A user with balance 0, strictly below the search cost 1 of c3Cfg. -/
def c4User : UserRow :=
  ⟨7, none, none, 0, 0, some 0, 0, none, 0, [], some 0, false, false, false⟩

/-- A store holding just that poor user, with an empty search log. -/
def c4Store : Store :=
  { users := [c4User], redeem_codes := [], code_redemptions := [],
    search_logs := [], user_states := [] }

/-- Counterexample for C4: the failed lookup of a user with balance 0 at
cost 1 reports insufficient credits with the balance untouched, but the
search log is not as it was — the log entry was inserted before the balance
check. -/
theorem phone_insufficient_counterexample :
    (handle_phone_number_private c3Cfg true 1 [] 7 "9876543210" c4Store).1
      = PhoneOutcome.insufficientCredits ∧
    c4Store.search_logs = [] ∧
    (handle_phone_number_private c3Cfg true 1 [] 7 "9876543210" c4Store).2.search_logs
      = [⟨7, "9876543210", "private", 1⟩] := by
  decide

/-- C4 (amended): when the upstream fetch succeeds and the private-chat
user's balance is below the per-search cost, the lookup fails with the
insufficient-credits outcome and leaves the users table (balance and
total_searches) unchanged, but one search-log entry has been appended; when
the fetch fails the store is untouched and no insufficient-funds check ever
happens. -/
theorem phone_insufficient_amended (cfg : Config) (now : Nat)
    (suffix : List Char) (uid : Nat) (num : String) (s : Store) (u : UserRow)
    (hu : getUser s uid = some u) (hlt : u.credits < cfg.private_search_cost) :
    (handle_phone_number_private cfg true now suffix uid num s).1
      = PhoneOutcome.insufficientCredits ∧
    (handle_phone_number_private cfg true now suffix uid num s).2.users = s.users ∧
    (handle_phone_number_private cfg true now suffix uid num s).2.search_logs
      = s.search_logs ++ [⟨uid, num, "private", now⟩] ∧
    (handle_phone_number_private cfg false now suffix uid num s)
      = (PhoneOutcome.upstreamFailed, s) := by
  have hu2 : List.find? (byId uid)
      ({ s with search_logs := s.search_logs ++ [⟨uid, num, "private", now⟩] } : Store).users
      = some u := hu
  unfold handle_phone_number_private
  rw [if_neg (by simp)]
  dsimp only
  rw [get_or_create_existing cfg now suffix uid none none _ u hu2]
  dsimp only
  rw [if_pos hlt]
  rw [if_neg (by simp)]
  rw [if_pos (by simp)]
  exact ⟨rfl, rfl, rfl, rfl⟩

/-- Witness for the amended C4 theorem at the concrete store. -/
theorem phone_insufficient_amended_witness :
    (handle_phone_number_private c3Cfg true 1 [] 7 "9876543210" c4Store).1
      = PhoneOutcome.insufficientCredits ∧
    (handle_phone_number_private c3Cfg true 1 [] 7 "9876543210" c4Store).2.users
      = c4Store.users := by
  have h := phone_insufficient_amended c3Cfg 1 [] 7 "9876543210" c4Store c4User
    (by decide) (by decide)
  exact ⟨h.1, h.2.1⟩

lemma vehicleRoute_none_shape (c : String) (state : Option String)
    (t : List Char) (h : vehicleShape t = none) : vehicleRoute c state t = none := by
  unfold vehicleRoute
  rw [h]

lemma emailRoute_none_shape (c : String) (state : Option String)
    (t : List Char) (h : emailShape t = none) : emailRoute c state t = none := by
  unfold emailRoute
  rw [h]

lemma phoneRoute_none_shape (c : String) (state : Option String)
    (t : List Char) (h : phoneShape t = false) : phoneRoute c state t = none := by
  unfold phoneRoute
  simp [h]

lemma vehicleRoute_nonprivate (c : String) (hc : c ≠ "private")
    (state : Option String) (t v : List Char) (h : vehicleShape t = some v) :
    vehicleRoute c state t = some (Route.vehicleLookup v) := by
  unfold vehicleRoute
  rw [h]
  dsimp only
  rw [if_pos (Or.inl hc)]

lemma emailRoute_nonprivate (c : String) (hc : c ≠ "private")
    (state : Option String) (t e : List Char) (h : emailShape t = some e) :
    emailRoute c state t = some (Route.gmailLookup e) := by
  unfold emailRoute
  rw [h]
  dsimp only
  rw [if_pos (Or.inl hc)]

lemma phoneRoute_nonprivate (c : String) (hc : c ≠ "private")
    (state : Option String) (t : List Char) (h : phoneShape t = true) :
    phoneRoute c state t = some Route.phoneLookup := by
  unfold phoneRoute
  rw [h]
  rw [if_pos rfl, if_pos (Or.inl hc)]

lemma vehicleRoute_private_inv {state : Option String} {t : List Char}
    {r : Route} (h : vehicleRoute "private" state t = some r) :
    state = some waitingVehicle ∧
    ∃ v, vehicleShape t = some v ∧ r = Route.vehicleLookup v := by
  unfold vehicleRoute at h
  cases hv : vehicleShape t with
  | none => rw [hv] at h; cases h
  | some v =>
      rw [hv] at h
      dsimp only at h
      by_cases hst : state = some waitingVehicle
      · rw [if_pos (Or.inr hst)] at h
        injection h with h
        exact ⟨hst, v, rfl, h.symm⟩
      · rw [if_neg (fun hor => hor.elim (fun h1 => h1 rfl) hst)] at h
        cases h

lemma emailRoute_private_inv {state : Option String} {t : List Char}
    {r : Route} (h : emailRoute "private" state t = some r) :
    state = some waitingGmail ∧
    ∃ e, emailShape t = some e ∧ r = Route.gmailLookup e := by
  unfold emailRoute at h
  cases hv : emailShape t with
  | none => rw [hv] at h; cases h
  | some e =>
      rw [hv] at h
      dsimp only at h
      by_cases hst : state = some waitingGmail
      · rw [if_pos (Or.inr hst)] at h
        injection h with h
        exact ⟨hst, e, rfl, h.symm⟩
      · rw [if_neg (fun hor => hor.elim (fun h1 => h1 rfl) hst)] at h
        cases h

lemma phoneRoute_private_inv {state : Option String} {t : List Char}
    {r : Route} (h : phoneRoute "private" state t = some r) :
    state = some waitingPhone ∧ phoneShape t = true ∧ r = Route.phoneLookup := by
  unfold phoneRoute at h
  cases hv : phoneShape t with
  | false => rw [hv] at h; cases h
  | true =>
      rw [hv] at h
      rw [if_pos rfl] at h
      by_cases hst : state = some waitingPhone
      · rw [if_pos (Or.inr hst)] at h
        injection h with h
        exact ⟨hst, rfl, h.symm⟩
      · rw [if_neg (fun hor => hor.elim (fun h1 => h1 rfl) hst)] at h
        cases h

set_option maxHeartbeats 1000000 in
/-- Each state-table entry dispatches to a handler owned by that state (or
to none when the state is not in the table). -/
lemma stateDispatch_owner (st : String) (d : Option String) :
    stateDispatch st d = Route.noRoute ∨
    routeOwner (stateDispatch st d) = some st := by
  unfold stateDispatch
  repeat' split
  all_goals try exact Or.inl rfl
  all_goals rename_i h
  all_goals exact Or.inr (by rw [eq_of_beq h]; rfl)

/-- Counterexample for C1: the routing priorities are the reverse of the
claim.  In a group chat with the redeem-code state set, a 10-digit text is
routed by shape to the phone handler, not by state to the redeem handler;
in a private chat, a vehicle-shaped text with no matching state set invokes
no handler at all, although the claim says shape decides private chats. -/
theorem router_priority_counterexample :
    handle_text_messages "group" (some (waitingRedeem, none))
      ['9', '8', '7', '6', '5', '4', '3', '2', '1', '0'] = Route.phoneLookup ∧
    Route.phoneLookup ≠ Route.redeemCodeInput ∧
    vehicleShape ['.', 'A', 'B', '1', '2'] = some ['A', 'B', '1', '2'] ∧
    handle_text_messages "private" none ['.', 'A', 'B', '1', '2'] = Route.noRoute ∧
    Route.noRoute ≠ Route.vehicleLookup ['A', 'B', '1', '2'] := by
  decide

/-- C1 (amended): shape-based routing takes priority over conversation
state in non-private (group) chats — a message matching one of the three
shapes routes to that shape's handler whatever state is stored — while in
private chats the stored state takes priority: with no state set no handler
runs at all, and with a state set the handler invoked is always the one
owned by that state. -/
theorem router_shape_vs_state (chat : String) (hc : chat ≠ "private")
    (st : String) (d : Option String) (t : List Char) :
    (∀ v, vehicleShape (pyStrip t) = some v →
        handle_text_messages chat (some (st, d)) t = Route.vehicleLookup v) ∧
    (∀ e, vehicleShape (pyStrip t) = none → emailShape (pyStrip t) = some e →
        handle_text_messages chat (some (st, d)) t = Route.gmailLookup e) ∧
    (vehicleShape (pyStrip t) = none → emailShape (pyStrip t) = none →
        phoneShape (pyStrip t) = true →
        handle_text_messages chat (some (st, d)) t = Route.phoneLookup) ∧
    handle_text_messages "private" none t = Route.noRoute ∧
    (handle_text_messages "private" (some (st, d)) t = Route.noRoute ∨
        routeOwner (handle_text_messages "private" (some (st, d)) t) = some st) := by
  refine ⟨?_, ?_, ?_, ?_, ?_⟩
  · intro v hv
    unfold handle_text_messages
    dsimp only [Option.map]
    rw [vehicleRoute_nonprivate chat hc (some st) (pyStrip t) v hv]
  · intro e hv he
    unfold handle_text_messages
    dsimp only [Option.map]
    rw [vehicleRoute_none_shape chat (some st) (pyStrip t) hv,
        emailRoute_nonprivate chat hc (some st) (pyStrip t) e he]
  · intro hv he hp
    unfold handle_text_messages
    dsimp only [Option.map]
    rw [vehicleRoute_none_shape chat (some st) (pyStrip t) hv,
        emailRoute_none_shape chat (some st) (pyStrip t) he,
        phoneRoute_nonprivate chat hc (some st) (pyStrip t) hp]
  · unfold handle_text_messages
    dsimp only [Option.map]
    cases hv : vehicleRoute "private" none (pyStrip t) with
    | some r => exact absurd (vehicleRoute_private_inv hv).1 (by simp)
    | none =>
        cases he : emailRoute "private" none (pyStrip t) with
        | some r => exact absurd (emailRoute_private_inv he).1 (by simp)
        | none =>
            cases hp : phoneRoute "private" none (pyStrip t) with
            | some r => exact absurd (phoneRoute_private_inv hp).1 (by simp)
            | none => rfl
  · unfold handle_text_messages
    dsimp only [Option.map]
    cases hv : vehicleRoute "private" (some st) (pyStrip t) with
    | some r =>
        obtain ⟨hst, v, hsh, hr⟩ := vehicleRoute_private_inv hv
        injection hst with hst
        right
        rw [hr, hst]
        rfl
    | none =>
        cases he : emailRoute "private" (some st) (pyStrip t) with
        | some r =>
            obtain ⟨hst, e, hsh, hr⟩ := emailRoute_private_inv he
            injection hst with hst
            right
            rw [hr, hst]
            rfl
        | none =>
            cases hp : phoneRoute "private" (some st) (pyStrip t) with
            | some r =>
                obtain ⟨hst, hsh, hr⟩ := phoneRoute_private_inv hp
                injection hst with hst
                right
                rw [hr, hst]
                rfl
            | none => exact stateDispatch_owner st d

/-- Witness for the amended C1 theorem: a 10-digit text in a group with the
redeem state set routes to the phone handler; the same text in a private
chat with no state routes nowhere. -/
theorem router_shape_vs_state_witness :
    handle_text_messages "group" (some (waitingRedeem, none))
      ['9', '8', '7', '6', '5', '4', '3', '2', '1', '0'] = Route.phoneLookup ∧
    handle_text_messages "private" none
      ['9', '8', '7', '6', '5', '4', '3', '2', '1', '0'] = Route.noRoute := by
  have h := router_shape_vs_state "group" (by decide) waitingRedeem none
    ['9', '8', '7', '6', '5', '4', '3', '2', '1', '0']
  exact ⟨h.2.2.1 (by decide) (by decide) (by decide), h.2.2.2.1⟩

end Bot
